import Mathlib

/-!
Verification of the ai-inbox-automation repository's follow-up scheduler,
RAG retrieval wrapper, reply drafter, Gmail body extraction and LLM-client
wiring, as shallowly embedded Lean definitions translated from the Python
sources under `src/`.

Modelling conventions:
* The scheduler's `self.follow_ups` is a Python `dict` keyed by `email_id`;
  Python dicts iterate in insertion order and an assignment to an existing
  key replaces the value in place (keeping its position).  It is embedded as
  an association list `Store := List (String × FollowUp)`.
* Timestamps (`datetime.now()`, `isoformat` strings) are embedded as integer
  clock values (seconds).  The code serialises `datetime` values with
  `isoformat()` and parses them back with `fromisoformat`, a round-trip that
  preserves both the value and the ordering, so comparing the integers is
  faithful.  `timedelta(days = d)` is `d * 86400` seconds.
* Record `status` is a plain JSON string in the code (only values written:
  "pending" and "completed"); it stays a `String` here.
* External calls that can raise (the LLM call, the encoder, the index query,
  `json.dump`) are embedded as `Except String _` values supplied as
  parameters; a `try/except` block in the code becomes a `match` on them.
-/

/-- A follow-up record as written by `schedule_follow_up`
(src/agents/scheduler.py lines 54-61).  `sender` embeds the `"from"` key
(`from` is a Lean keyword). -/
structure FollowUp where
  email_id : String
  subject : String
  sender : String
  follow_up_date : Int
  created_at : Int
  status : String
  completed_at : Option Int := none
deriving Repr, DecidableEq

/-- The scheduler's in-memory `self.follow_ups` dict: keys in insertion
order, each with its record. -/
abbrev Store := List (String × FollowUp)

def storeKeys (s : Store) : List String := s.map Prod.fst

/-- `self.follow_ups[k]` read access (first — in a dict, only — binding). -/
def storeLookup (s : Store) (k : String) : Option FollowUp :=
  (s.find? (fun p => p.1 == k)).map Prod.snd

/-- Python `k in self.follow_ups`. -/
def storeContains (s : Store) (k : String) : Bool :=
  s.any (fun p => p.1 == k)

/-- Python `self.follow_ups[k] = v`: replaces the value of an existing key in
place (the key keeps its dict position), otherwise appends the new binding at
the end. -/
def storeInsert (s : Store) (k : String) (v : FollowUp) : Store :=
  if storeContains s k then
    s.map (fun p => if p.1 == k then (k, v) else p)
  else
    s ++ [(k, v)]

/-- Python `del self.follow_ups[k]`. -/
def storeErase (s : Store) (k : String) : Store :=
  s.filter (fun p => p.1 != k)

/-- The `email_data` dict as consumed by `schedule_follow_up`, which reads
only `email_data.get("subject", "")` and `email_data.get("from", "")`. -/
structure EmailData where
  subject : Option String := none
  sender : Option String := none

/-- The dict returned by `schedule_follow_up` (scheduler.py lines 69-72). -/
structure ScheduleResult where
  follow_up_date : Int
  scheduled : Bool
deriving Repr, DecidableEq

/-- `timedelta(days = 1)` in seconds. -/
def secondsPerDay : Int := 86400

/-- `schedule_follow_up` (src/agents/scheduler.py lines 37-72), in-memory
effect.  `tDate` and `tCreated` are the two `datetime.now()` reads (line 52
computing `follow_up_date`, line 59 computing `created_at`).  `days_until`
is an arbitrary integer: the code performs no validation on it.  The
`_save_follow_ups()` call does not change the in-memory dict; it is modelled
separately by `schedule_follow_up_persist`. -/
def schedule_follow_up (store : Store) (email_id : String) (email_data : EmailData)
    (days_until : Int) (tDate tCreated : Int) : Store × ScheduleResult :=
  let follow_up_date := tDate + days_until * secondsPerDay
  let record : FollowUp :=
    { email_id := email_id
      subject := email_data.subject.getD ""
      sender := email_data.sender.getD ""
      follow_up_date := follow_up_date
      created_at := tCreated
      status := "pending"
      completed_at := none }
  (storeInsert store email_id record, { follow_up_date := follow_up_date, scheduled := true })

/-- The per-record test of the `get_due_follow_ups` loop (scheduler.py lines
80-82): `status == "pending"` and `follow_up_date <= now`. -/
def isDuePending (now : Int) (r : FollowUp) : Bool :=
  r.status == "pending" && decide (r.follow_up_date ≤ now)

/-- `get_due_follow_ups` (src/agents/scheduler.py lines 74-86): the Python
loop appending each due pending record to `due_follow_ups` in dict iteration
order. -/
def get_due_follow_ups (store : Store) (now : Int) : List FollowUp :=
  store.foldl (fun acc p => if isDuePending now p.2 then acc ++ [p.2] else acc) []

/-- `mark_completed` (src/agents/scheduler.py lines 88-94), in-memory effect:
when `email_id` is a key, set its record's `status` to `"completed"` and
stamp `completed_at`; otherwise do nothing. -/
def mark_completed (store : Store) (email_id : String) (now : Int) : Store :=
  if storeContains store email_id then
    store.map (fun p =>
      if p.1 == email_id then
        (p.1, { p.2 with status := "completed", completed_at := some now })
      else p)
  else store

/-- `cancel_follow_up` (src/agents/scheduler.py lines 96-101), in-memory
effect: delete the record outright when present. -/
def cancel_follow_up (store : Store) (email_id : String) : Store :=
  if storeContains store email_id then storeErase store email_id else store

/-- The dict returned by `get_follow_up_stats` (scheduler.py lines 115-120). -/
structure Stats where
  total : Nat
  pending : Nat
  completed : Nat
  completion_rate : Rat
deriving Repr, DecidableEq

/-- `get_follow_up_stats` (src/agents/scheduler.py lines 107-120):
`sum(1 for f in values if cond)` is `countP`, and the completion rate is the
guarded division `(completed / total * 100) if total > 0 else 0`. -/
def get_follow_up_stats (store : Store) : Stats :=
  let total := store.length
  let pending := (store.map Prod.snd).countP (fun f => f.status == "pending")
  let completed := (store.map Prod.snd).countP (fun f => f.status == "completed")
  { total := total
    pending := pending
    completed := completed
    completion_rate := if total > 0 then (completed : Rat) / (total : Rat) * 100 else 0 }

/-- Outcome of the `json.dump(self.follow_ups, f)` write inside
`_save_follow_ups`: the external write either succeeds, making the file hold
the in-memory dict, or raises.  `writeOk` selects which. -/
def jsonDump (mem : Store) (writeOk : Bool) : Except String Store :=
  if writeOk then Except.ok mem else Except.error "io error"

/-- `_save_follow_ups` (src/agents/scheduler.py lines 29-35): `try/except`
around the write; a failure is logged (`logger.error`) and swallowed, leaving
the on-disk store unchanged.  The function itself never raises, hence the
result is always `Except.ok`. -/
def save_follow_ups (mem disk : Store) (writeOk : Bool) : Except String Store :=
  match jsonDump mem writeOk with
  | Except.ok newDisk => Except.ok newDisk
  | Except.error _ => Except.ok disk

/-- `schedule_follow_up` including its `self._save_follow_ups()` call (line
63): returns the new in-memory store, the new on-disk store, and the returned
dict.  An `Except.error` result would model an exception escaping to the
caller. -/
def schedule_follow_up_persist (mem disk : Store) (email_id : String)
    (email_data : EmailData) (days_until : Int) (tDate tCreated : Int)
    (writeOk : Bool) : Except String (Store × Store × ScheduleResult) :=
  match schedule_follow_up mem email_id email_data days_until tDate tCreated with
  | (mem2, ret) =>
    match save_follow_ups mem2 disk writeOk with
    | Except.ok disk2 => Except.ok (mem2, disk2, ret)
    | Except.error e => Except.error e

/-! ## Vector store (src/core/vector_store.py) -/

/-- A record of the external chroma collection as written by
`add_email_pair` (vector_store.py lines 28-45): id, embedding of the
incoming text, the stored reply text (`document`), and metadata. -/
structure EmbRecord where
  id : String
  embedding : List Int
  document : String
  metadata : List (String × String)
deriving Repr, DecidableEq

/-- One element of the list `search_similar_responses` builds (vector_store.py
lines 61-71): the stored reply text, its distance score and its metadata. -/
structure Hit where
  response : String
  distance : Int
  metadata : List (String × String)
deriving Repr, DecidableEq

/-- Squared Euclidean distance between integer embedding vectors: the model
of the index's distance metric.  (The real index uses cosine distance over
float vectors; the claims depend only on the ranking the metric induces.) -/
def dist2 (u v : List Int) : Int :=
  (List.zipWith (fun a b => (a - b) * (a - b)) u v).sum

/-- Ranking order used by the modelled index: ascending distance. -/
def rankLe (a b : EmbRecord × Int) : Prop := a.2 ≤ b.2

instance : DecidableRel rankLe :=
  fun a b => inferInstanceAs (Decidable (a.2 ≤ b.2))

instance : IsTotal (EmbRecord × Int) rankLe := ⟨fun a b => Int.le_total a.2 b.2⟩

instance : IsTrans (EmbRecord × Int) rankLe := ⟨fun _ _ _ => Int.le_trans⟩

/-- Ascending-distance order on the hits `search_similar_responses` returns. -/
def hitLe (a b : Hit) : Prop := a.distance ≤ b.distance

/-- Modelled from the documented contract of the external index
(`collection.query`, spec section 6: "query(vector, k) → ranked neighbors with
distances"): every stored record paired with its distance to the query
embedding, ranked by ascending distance, truncated to `n_results`. -/
def queryIndex (coll : List EmbRecord) (q : List Int) (n_results : Nat) :
    List (EmbRecord × Int) :=
  ((coll.map (fun r => (r, dist2 q r.embedding))).insertionSort rankLe).take n_results

/-- `search_similar_responses` (src/core/vector_store.py lines 47-77).
`encode` is the outcome of `self.encoder.encode(query_text)` (the embedding,
or the raised error) and `queryOk` is whether `self.collection.query(...)`
succeeds; the surrounding `try/except` turns either failure into `[]`
(logged and swallowed).  On success the code repackages each ranked neighbor
as a dict with its document, distance and metadata, in index order. -/
def search_similar_responses (coll : List EmbRecord)
    (encode : String → Except String (List Int)) (queryOk : Bool)
    (query_text : String) (n_results : Nat) : List Hit :=
  match encode query_text with
  | Except.error _ => []
  | Except.ok query_embedding =>
    if queryOk then
      (queryIndex coll query_embedding n_results).map (fun p =>
        { response := p.1.document, distance := p.2, metadata := p.1.metadata })
    else []

/-! ## Reply drafter (src/agents/reply_drafter.py) -/

/-- An email dict as produced by `_get_email_details`
(src/core/gmail_client.py lines 98-106); `sender` embeds the `"from"` key. -/
structure Email where
  id : String := ""
  thread_id : String := ""
  subject : String := ""
  sender : String := ""
  date : String := ""
  body : String := ""
  snippet : String := ""
deriving Repr, DecidableEq

/-- A classification dict (category and priority), as read by the prompt
construction in `draft_reply`. -/
structure Classification where
  category : String := ""
  priority : String := ""
deriving Repr, DecidableEq

/-- A summary dict, as read by the prompt construction in `draft_reply`. -/
structure Summary where
  summary : String := ""
  key_points : List String := []
  action_items : List String := []
  sentiment : String := ""
deriving Repr, DecidableEq

/-- The structured reply dict `draft_reply` and `refine_reply` return. -/
structure Reply where
  subject : String
  body : String
  tone : String
  confidence : Rat
deriving Repr, DecidableEq

/-- `draft_reply` (src/agents/reply_drafter.py lines 16-93).  The prompt
assembly before the `try` (RAG-context formatting over `ragHits`,
sender-name extraction, f-strings) is pure string work on these structured
inputs and cannot raise; `llmResult` is the outcome of
`get_llm_client().generate_json(prompt, ...)`: the parsed reply, or the
raised error (API failure or `json.loads` parse failure — both surface as an
exception caught by the `except` on line 86, which returns the static
fallback dict of lines 88-93). -/
def draft_reply (email : Email) (classification : Classification)
    (summary : Summary) (ragHits : List Hit)
    (llmResult : Except String Reply) : Reply :=
  match llmResult with
  | Except.ok result => result
  | Except.error _ =>
    { subject := "Re: " ++ email.subject
      body := "Thank you for your email. I will review and get back to you shortly."
      tone := "professional"
      confidence := 3 / 10 }

/-- `refine_reply` (src/agents/reply_drafter.py lines 125-161): same shape;
the fallback dict of lines 156-161 carries the original draft text as its
body, unmodified. -/
def refine_reply (original_draft : String) (feedback : String) (email : Email)
    (llmResult : Except String Reply) : Reply :=
  match llmResult with
  | Except.ok result => result
  | Except.error _ =>
    { subject := "Re: " ++ email.subject
      body := original_draft
      tone := "professional"
      confidence := 1 / 2 }

/-! ## Gmail body extraction (src/core/gmail_client.py) -/

/-- One element of `payload["parts"]`.  `data` embeds
`part["body"]["data"]` after the `base64.urlsafe_b64decode(...).decode`
step (a bijective transport done by the standard library); `none` models the
`"data"` key being absent. -/
structure MessagePart where
  mimeType : String
  data : Option String := none
deriving Repr, DecidableEq

/-- A Gmail message payload as read by `_get_email_body`: `parts` is
`payload["parts"]` when the `"parts"` key is present, and `bodyData` is the
decoded `payload["body"]["data"]` when both keys are present. -/
structure MessagePayload where
  parts : Option (List MessagePart) := none
  bodyData : Option String := none
deriving Repr, DecidableEq

/-- `_get_email_body` (src/core/gmail_client.py lines 112-127): when the
message is multipart, the loop takes the first part with
`mimeType == "text/plain"` whose body carries data and breaks; without a
`"parts"` key it falls back to the single-part `payload["body"]["data"]`;
in every remaining case `body` keeps its initial value `""`. -/
def get_email_body (payload : MessagePayload) : String :=
  match payload.parts with
  | some parts =>
    match parts.findSome? (fun part =>
        if part.mimeType == "text/plain" then part.data else none) with
    | some d => d
    | none => ""
  | none =>
    match payload.bodyData with
    | some d => d
    | none => ""

/-! ## LLM client wiring (src/core/llm_client.py and its importers) -/

/-- The top-level names `src/core/llm_client.py` defines with a `class` or an
assignment: the `LLMClient` class (line 7) and the `llm_client` instance
(line 97).  No `def get_llm_client` exists anywhere in the file. -/
def llmClientDefinedNames : List String := ["LLMClient", "llm_client"]

/-- The names the module's own `import` lines bind in its namespace (lines
1-4 of src/core/llm_client.py). -/
def llmClientImportedNames : List String :=
  ["Optional", "Dict", "Any", "Anthropic", "OpenAI", "settings"]

/-- Every top-level name bound in the `core.llm_client` module namespace. -/
def llmClientModuleNames : List String :=
  llmClientImportedNames ++ llmClientDefinedNames

/-- Python `from M import name`, evaluated when the importing module loads:
succeeds exactly when `name` is bound in module `M`; otherwise the module
load raises `ImportError: cannot import name ...`. -/
def importFrom (moduleNames : List String) (name : String) : Except String Unit :=
  if name ∈ moduleNames then Except.ok ()
  else Except.error ("cannot import name " ++ name)

/-- src/agents/reply_drafter.py line 2:
`from core.llm_client import get_llm_client`, executed at module load, before
any function of the module can run. -/
def reply_drafter_module_load : Except String Unit :=
  importFrom llmClientModuleNames "get_llm_client"

/-- src/agents/summarizer.py line 2: the same import. -/
def summarizer_module_load : Except String Unit :=
  importFrom llmClientModuleNames "get_llm_client"

/-! ## Scheduler helper lemmas -/

theorem due_foldl_acc (store : Store) (now : Int) (acc : List FollowUp) :
    store.foldl (fun acc p => if isDuePending now p.2 then acc ++ [p.2] else acc) acc =
      acc ++ (store.filter (fun p => isDuePending now p.2)).map Prod.snd := by
  induction store generalizing acc with
  | nil => simp
  | cons q tl ih =>
    cases h : isDuePending now q.2 <;>
      simp [List.filter_cons, h, ih, List.append_assoc]

theorem get_due_eq_filter (store : Store) (now : Int) :
    get_due_follow_ups store now =
      (store.filter (fun p => isDuePending now p.2)).map Prod.snd := by
  simpa [get_due_follow_ups] using due_foldl_acc store now []

theorem isDuePending_iff (now : Int) (r : FollowUp) :
    isDuePending now r = true ↔ r.status = "pending" ∧ r.follow_up_date ≤ now := by
  simp [isDuePending]

theorem mem_due_iff (store : Store) (now : Int) (r : FollowUp) :
    r ∈ get_due_follow_ups store now ↔
      (∃ p ∈ store, p.2 = r) ∧ r.status = "pending" ∧ r.follow_up_date ≤ now := by
  rw [get_due_eq_filter]
  constructor
  · intro hr
    rcases List.mem_map.mp hr with ⟨p, hp, hpr⟩
    rcases List.mem_filter.mp hp with ⟨hps, hdue⟩
    rcases (isDuePending_iff now p.2).mp hdue with ⟨hstat, hdate⟩
    subst hpr
    exact ⟨⟨p, hps, rfl⟩, hstat, hdate⟩
  · rintro ⟨⟨p, hps, rfl⟩, hstat, hdate⟩
    exact List.mem_map.mpr ⟨p, List.mem_filter.mpr
      ⟨hps, (isDuePending_iff now p.2).mpr ⟨hstat, hdate⟩⟩, rfl⟩

theorem storeContains_iff (s : Store) (k : String) :
    storeContains s k = true ↔ k ∈ storeKeys s := by
  simp [storeContains, storeKeys, List.any_eq_true, List.mem_map]

theorem find?_map_overwrite (s : Store) (k : String) (v : FollowUp)
    (h : storeContains s k = true) :
    (s.map (fun p => if p.1 == k then (k, v) else p)).find? (fun p => p.1 == k) =
      some (k, v) := by
  induction s with
  | nil => simp [storeContains] at h
  | cons q tl ih =>
    cases hq : q.1 == k with
    | true =>
      simp only [List.map_cons, hq, if_true]
      exact List.find?_cons_of_pos _ (by simp)
    | false =>
      have htl : storeContains tl k = true := by
        simp only [storeContains, List.any_cons, hq, Bool.false_or] at h
        exact h
      simp only [List.map_cons, hq, if_false, Bool.false_eq_true]
      rw [List.find?_cons_of_neg _ (by simp [hq])]
      exact ih htl

theorem storeLookup_storeInsert_self (s : Store) (k : String) (v : FollowUp) :
    storeLookup (storeInsert s k v) k = some v := by
  unfold storeInsert
  by_cases h : storeContains s k = true
  · simp only [h, if_true, storeLookup, find?_map_overwrite s k v h, Option.map_some']
  · have hb : storeContains s k = false := by
      cases hx : storeContains s k
      · rfl
      · exact absurd hx h
    have hnone : s.find? (fun p => p.1 == k) = none := by
      rw [List.find?_eq_none]
      intro p hp hpk
      have : storeContains s k = true := by
        rw [storeContains, List.any_eq_true]
        exact ⟨p, hp, hpk⟩
      exact h this
    simp only [hb, Bool.false_eq_true, if_false, storeLookup]
    rw [List.find?_append, hnone]
    simp

theorem storeKeys_storeInsert (s : Store) (k : String) (v : FollowUp) :
    storeKeys (storeInsert s k v) =
      if storeContains s k then storeKeys s else storeKeys s ++ [k] := by
  unfold storeInsert
  by_cases h : storeContains s k = true
  · simp only [h, if_true, storeKeys, List.map_map]
    apply List.map_congr_left
    intro p hp
    cases hq : p.1 == k with
    | true =>
      have hpk : p.1 = k := by simpa using hq
      simp [Function.comp, hq, hpk]
    | false => simp [Function.comp, hq]
  · have hb : storeContains s k = false := by
      cases hx : storeContains s k
      · rfl
      · exact absurd hx h
    simp [hb, storeKeys]

/-! ## Claim theorems: scheduler -/

/-- C1: for every store state and query time, `get_due_follow_ups` returns
exactly the subset of records whose status is "pending" and whose
`follow_up_date` is ≤ the query time — it never returns a completed record,
and a cancelled record was deleted from the store so it cannot appear — and
the results are the order-preserving filter of the store's values (insertion
order of the underlying dict, not sorted by due date). -/
theorem due_list_exact (store : Store) (now : Int) :
    get_due_follow_ups store now =
      (store.filter (fun p => isDuePending now p.2)).map Prod.snd ∧
    (∀ r : FollowUp, r ∈ get_due_follow_ups store now ↔
      (∃ p ∈ store, p.2 = r) ∧ r.status = "pending" ∧ r.follow_up_date ≤ now) ∧
    (∀ r ∈ get_due_follow_ups store now, r.status ≠ "completed") := by
  refine ⟨get_due_eq_filter store now, fun r => mem_due_iff store now r, ?_⟩
  intro r hr hc
  have h := ((mem_due_iff store now r).mp hr).2.1
  rw [hc] at h
  exact absurd h (by decide)

/-- C2: for every integer `days_until` (zero and negative included — the code
rejects nothing) and every prior store, `schedule_follow_up` creates or
overwrites the record for `email_id` as a "pending" record whose
`follow_up_date` is the creation-time clock read plus exactly `days_until`
days (exact arithmetic, no rounding to a date boundary), built from the
inputs alone (no merge of prior fields), and — under the dict invariant that
keys are unique — the new store still has exactly one record for
`email_id`. -/
theorem schedule_creates_pending (store : Store) (email_id : String)
    (email_data : EmailData) (days_until : Int) (tDate tCreated : Int) :
    storeLookup
        (schedule_follow_up store email_id email_data days_until tDate tCreated).1
        email_id =
      some { email_id := email_id
             subject := email_data.subject.getD ""
             sender := email_data.sender.getD ""
             follow_up_date := tDate + days_until * secondsPerDay
             created_at := tCreated
             status := "pending"
             completed_at := none } ∧
    (schedule_follow_up store email_id email_data days_until tDate tCreated).2 =
      { follow_up_date := tDate + days_until * secondsPerDay, scheduled := true } ∧
    ((storeKeys store).Nodup →
      (storeKeys
        (schedule_follow_up store email_id email_data days_until tDate tCreated).1).Nodup ∧
      (storeKeys
        (schedule_follow_up store email_id email_data days_until tDate tCreated).1).count
          email_id = 1) := by
  refine ⟨storeLookup_storeInsert_self store email_id _, rfl, ?_⟩
  intro hnd
  have hkeys := storeKeys_storeInsert store email_id
    { email_id := email_id
      subject := email_data.subject.getD ""
      sender := email_data.sender.getD ""
      follow_up_date := tDate + days_until * secondsPerDay
      created_at := tCreated
      status := "pending"
      completed_at := none }
  have h1 : (schedule_follow_up store email_id email_data days_until tDate tCreated).1 =
      storeInsert store email_id
        { email_id := email_id
          subject := email_data.subject.getD ""
          sender := email_data.sender.getD ""
          follow_up_date := tDate + days_until * secondsPerDay
          created_at := tCreated
          status := "pending"
          completed_at := none } := rfl
  rw [h1, hkeys]
  by_cases h : storeContains store email_id = true
  · simp only [h, if_true]
    exact ⟨hnd, List.count_eq_one_of_mem hnd ((storeContains_iff store email_id).mp h)⟩
  · have hb : storeContains store email_id = false := by
      cases hx : storeContains store email_id
      · rfl
      · exact absurd hx h
    have hnotmem : email_id ∉ storeKeys store := fun hm =>
      h ((storeContains_iff store email_id).mpr hm)
    simp only [hb, Bool.false_eq_true, if_false]
    constructor
    · exact List.Nodup.append hnd (List.nodup_singleton email_id)
        (by simpa [List.disjoint_singleton] using hnotmem)
    · rw [List.count_append]
      simp [List.count_eq_zero.mpr hnotmem]

theorem storeLookup_mark_map (s : Store) (k : String) (now : Int) :
    storeLookup (s.map (fun p =>
        if p.1 == k then
          (p.1, { p.2 with status := "completed", completed_at := some now })
        else p)) k =
      (storeLookup s k).map
        (fun r => { r with status := "completed", completed_at := some now }) := by
  induction s with
  | nil => rfl
  | cons q tl ih =>
    cases hq : q.1 == k with
    | true =>
      simp only [List.map_cons, hq, if_true, storeLookup]
      rw [List.find?_cons_of_pos _ (by simpa using hq),
        List.find?_cons_of_pos _ (by simpa using hq)]
      rfl
    | false =>
      simp only [List.map_cons, hq, Bool.false_eq_true, if_false, storeLookup]
      rw [List.find?_cons_of_neg _ (by simp [hq]),
        List.find?_cons_of_neg _ (by simp [hq])]
      exact ih

theorem storeContains_true_of_lookup_some {s : Store} {k : String} {r : FollowUp}
    (h : storeLookup s k = some r) : storeContains s k = true := by
  rcases Option.map_eq_some'.mp h with ⟨p, hp, _⟩
  rw [storeContains, List.any_eq_true]
  exact ⟨p, List.mem_of_find?_eq_some hp, by
    have := List.find?_some hp
    simpa using this⟩

/-- C4: `mark_completed` is a no-op when `email_id` is absent; when present
it transitions the record to status "completed" and stamps `completed_at`;
and afterwards — under the invariant that each record's `email_id` field is
its dict key — `get_due_follow_ups` never contains that id again, at any
query time, even one past its due date. -/
theorem complete_excludes_from_due (store : Store) (email_id : String)
    (now now2 : Int) :
    (storeLookup store email_id = none → mark_completed store email_id now = store) ∧
    (∀ r : FollowUp, storeLookup store email_id = some r →
      storeLookup (mark_completed store email_id now) email_id =
        some { r with status := "completed", completed_at := some now }) ∧
    ((∀ p ∈ store, p.2.email_id = p.1) →
      ∀ r ∈ get_due_follow_ups (mark_completed store email_id now) now2,
        r.email_id ≠ email_id) := by
  refine ⟨?_, ?_, ?_⟩
  · intro hnone
    have hb : storeContains store email_id = false := by
      rw [storeContains, List.any_eq_false]
      intro p hp hpk
      have : store.find? (fun p => p.1 == email_id) = none :=
        Option.map_eq_none'.mp hnone
      exact absurd hpk (List.find?_eq_none.mp this p hp)
    simp [mark_completed, hb]
  · intro r hr
    have hc : storeContains store email_id = true :=
      storeContains_true_of_lookup_some hr
    rw [mark_completed, if_pos hc, storeLookup_mark_map, hr]
    rfl
  · intro hinv r hr
    intro hre
    rcases ((mem_due_iff _ now2 r).mp hr) with ⟨⟨p, hp, hpr⟩, hstat, _⟩
    by_cases hc : storeContains store email_id = true
    · rw [mark_completed, if_pos hc] at hp
      rcases List.mem_map.mp hp with ⟨p₀, hp₀, hfp⟩
      cases hq : p₀.1 == email_id with
      | true =>
        rw [hq] at hfp
        simp only [if_true] at hfp
        have : r.status = "completed" := by
          rw [← hpr, ← hfp]
        rw [this] at hstat
        exact absurd hstat (by decide)
      | false =>
        rw [hq] at hfp
        simp only [Bool.false_eq_true, if_false] at hfp
        have hkey : p₀.2.email_id = p₀.1 := hinv p₀ hp₀
        have : p₀.1 = email_id := by
          rw [← hkey, hfp, hpr, hre]
        simp [this] at hq
    · have hb : storeContains store email_id = false := by
        cases hx : storeContains store email_id
        · rfl
        · exact absurd hx hc
      rw [mark_completed, hb] at hp
      simp only [Bool.false_eq_true, if_false] at hp
      have hkey : p.2.email_id = p.1 := hinv p hp
      have hmem : storeContains store email_id = true := by
        rw [storeContains, List.any_eq_true]
        exact ⟨p, hp, by simp [← hkey, hpr, hre]⟩
      rw [hmem] at hb
      exact absurd hb (by decide)

/-- C8: `schedule_follow_up` with its save has no error path — it always
returns `Except.ok`: the in-memory store is updated exactly as the in-memory
operation does, the on-disk store becomes the updated store when the write
succeeds and is left unchanged (state not persisted) when the write raises,
and `_save_follow_ups` itself swallows the write failure (logged only). -/
theorem schedule_never_raises (mem disk : Store) (email_id : String)
    (email_data : EmailData) (days_until : Int) (tDate tCreated : Int)
    (writeOk : Bool) :
    schedule_follow_up_persist mem disk email_id email_data days_until tDate tCreated
        writeOk =
      Except.ok
        ((schedule_follow_up mem email_id email_data days_until tDate tCreated).1,
          (if writeOk then
            (schedule_follow_up mem email_id email_data days_until tDate tCreated).1
          else disk),
          (schedule_follow_up mem email_id email_data days_until tDate tCreated).2) ∧
    (∀ m d : Store, save_follow_ups m d true = Except.ok m) ∧
    (∀ m d : Store, save_follow_ups m d false = Except.ok d) := by
  refine ⟨?_, fun m d => rfl, fun m d => rfl⟩
  cases writeOk <;> rfl

/-- C9: `get_follow_up_stats` counts the records, the pending ones and the
completed ones, and its completion rate is `completed / total * 100`
guarded by `total > 0`; on the empty store every field is 0 and the division
branch is not taken. -/
theorem stats_division_safe (store : Store) :
    get_follow_up_stats [] =
      { total := 0, pending := 0, completed := 0, completion_rate := 0 } ∧
    (get_follow_up_stats store).total = store.length ∧
    (get_follow_up_stats store).pending =
      ((store.map Prod.snd).filter (fun f => f.status == "pending")).length ∧
    (get_follow_up_stats store).completed =
      ((store.map Prod.snd).filter (fun f => f.status == "completed")).length ∧
    (get_follow_up_stats store).completion_rate =
      (if store.length = 0 then 0 else
        ((get_follow_up_stats store).completed : Rat) /
          ((get_follow_up_stats store).total : Rat) * 100) := by
  refine ⟨rfl, rfl, ?_, ?_, ?_⟩
  · exact List.countP_eq_length_filter _ _
  · exact List.countP_eq_length_filter _ _
  · by_cases h : store.length = 0
    · simp [get_follow_up_stats, h]
    · have hp : 0 < store.length := Nat.pos_of_ne_zero h
      simp [get_follow_up_stats, h, hp]

/-! ## Claim theorems: retrieval, drafting, body extraction, imports -/

theorem queryIndex_length_le (coll : List EmbRecord) (q : List Int) (n : Nat) :
    (queryIndex coll q n).length ≤ n ∧ (queryIndex coll q n).length ≤ coll.length := by
  unfold queryIndex
  refine ⟨List.length_take_le n _, ?_⟩
  refine le_trans (List.length_take_le' n _) ?_
  rw [(List.perm_insertionSort rankLe _).length_eq, List.length_map]

theorem queryIndex_pairwise (coll : List EmbRecord) (q : List Int) (n : Nat) :
    List.Pairwise rankLe (queryIndex coll q n) := by
  unfold queryIndex
  exact List.Pairwise.sublist (List.take_sublist _ _)
    (List.sorted_insertionSort rankLe _)

theorem queryIndex_mem {coll : List EmbRecord} {q : List Int} {n : Nat}
    {p : EmbRecord × Int} (hp : p ∈ queryIndex coll q n) :
    ∃ r ∈ coll, p = (r, dist2 q r.embedding) := by
  unfold queryIndex at hp
  have h1 : p ∈ (coll.map (fun r => (r, dist2 q r.embedding))).insertionSort rankLe :=
    List.take_subset _ _ hp
  have h2 := (List.perm_insertionSort rankLe _).mem_iff.mp h1
  rcases List.mem_map.mp h2 with ⟨r, hr, hrp⟩
  exact ⟨r, hr, hrp.symm⟩

/-- C3: `search_similar_responses` never raises — on an empty index, on an
encoding failure or on a query failure it returns `[]` — and otherwise it
returns at most `n_results` hits and no more hits than the store holds
records, ordered by ascending distance, each hit carrying a stored record's
response text, distance score and metadata. -/
theorem search_never_raises (coll : List EmbRecord)
    (encode : String → Except String (List Int)) (queryOk : Bool)
    (query_text : String) (n_results : Nat) :
    (search_similar_responses coll encode queryOk query_text n_results).length ≤
      n_results ∧
    (search_similar_responses coll encode queryOk query_text n_results).length ≤
      coll.length ∧
    List.Sorted hitLe (search_similar_responses coll encode queryOk query_text n_results) ∧
    (coll = [] →
      search_similar_responses coll encode queryOk query_text n_results = []) ∧
    (∀ e, encode query_text = Except.error e →
      search_similar_responses coll encode queryOk query_text n_results = []) ∧
    (queryOk = false →
      search_similar_responses coll encode queryOk query_text n_results = []) ∧
    (∀ h ∈ search_similar_responses coll encode queryOk query_text n_results,
      ∃ r ∈ coll, h.response = r.document ∧ h.metadata = r.metadata) := by
  unfold search_similar_responses
  cases henc : encode query_text with
  | error e => simp
  | ok q =>
    cases queryOk with
    | false => simp
    | true =>
      simp only [if_true]
      refine ⟨?_, ?_, ?_, ?_, ?_, ?_, ?_⟩
      · rw [List.length_map]
        exact (queryIndex_length_le coll q n_results).1
      · rw [List.length_map]
        exact (queryIndex_length_le coll q n_results).2
      · exact List.pairwise_map.mpr
          ((queryIndex_pairwise coll q n_results).imp (fun h => h))
      · intro hcoll
        subst hcoll
        simp [queryIndex]
      · intro e he
        exact absurd he (by simp)
      · intro h
        exact absurd h (by simp)
      · intro h hh
        rcases List.mem_map.mp hh with ⟨p, hp, hph⟩
        rcases queryIndex_mem hp with ⟨r, hr, hpr⟩
        subst hpr
        exact ⟨r, hr, by rw [← hph], by rw [← hph]⟩

/-- C5: on a reply-generation failure (the external call raised, or its
output failed to parse as JSON — both reach the `except` branch),
`draft_reply` returns the static fallback reply acknowledging receipt, with
tone fixed to "professional" and confidence fixed at 0.3, strictly below
0.5; the failure is never propagated. -/
theorem draft_reply_fallback (email : Email) (classification : Classification)
    (summary : Summary) (ragHits : List Hit) (e : String) :
    draft_reply email classification summary ragHits (Except.error e) =
      { subject := "Re: " ++ email.subject
        body := "Thank you for your email. I will review and get back to you shortly."
        tone := "professional"
        confidence := 3 / 10 } ∧
    (draft_reply email classification summary ragHits (Except.error e)).confidence <
      1 / 2 ∧
    (draft_reply email classification summary ragHits (Except.error e)).tone =
      "professional" := by
  refine ⟨rfl, ?_, rfl⟩
  show (3 : Rat) / 10 < 1 / 2
  norm_num

/-- C6: when the refinement generation call fails, `refine_reply` returns
the original draft unmodified: the fallback reply's body is exactly the
`original_draft` text (wrapped in the structured reply dict with the
"Re:" subject, professional tone and confidence 0.5). -/
theorem refine_reply_fallback (original_draft feedback : String) (email : Email)
    (e : String) :
    (refine_reply original_draft feedback email (Except.error e)).body =
      original_draft ∧
    refine_reply original_draft feedback email (Except.error e) =
      { subject := "Re: " ++ email.subject
        body := original_draft
        tone := "professional"
        confidence := 1 / 2 } :=
  ⟨rfl, rfl⟩

theorem get_email_body_some_parts (parts : List MessagePart) (bd : Option String) :
    get_email_body { parts := some parts, bodyData := bd } =
      match parts.findSome? (fun part =>
          if part.mimeType == "text/plain" then part.data else none) with
      | some d => d
      | none => "" := rfl

theorem findSome?_append_none {α β : Type} (f : α → Option β) (l₁ l₂ : List α)
    (h : ∀ x ∈ l₁, f x = none) :
    (l₁ ++ l₂).findSome? f = l₂.findSome? f := by
  induction l₁ with
  | nil => rfl
  | cons a tl ih =>
    rw [List.cons_append, List.findSome?_cons, h a (List.mem_cons_self a tl)]
    exact ih (fun x hx => h x (List.mem_cons_of_mem a hx))

/-- C7: `_get_email_body` returns the data of the first text/plain part of a
multipart message (parts before it that are not text/plain are skipped),
falls back to the single-part body when the message has no `"parts"` key,
and returns the empty string — not an error — for a multipart message all of
whose parts are text/html (and generally whenever no text/plain part carries
data, or nothing carries data at all). -/
theorem email_body_extraction (pre post parts : List MessagePart)
    (p : MessagePart) (d s : String) (bd : Option String) :
    ((∀ q ∈ pre, q.mimeType ≠ "text/plain") → p.mimeType = "text/plain" →
      p.data = some d →
      get_email_body { parts := some (pre ++ p :: post), bodyData := bd } = d) ∧
    get_email_body { parts := none, bodyData := some s } = s ∧
    get_email_body { parts := none, bodyData := none } = "" ∧
    ((∀ q ∈ parts, q.mimeType = "text/html") →
      get_email_body { parts := some parts, bodyData := bd } = "") := by
  refine ⟨?_, rfl, rfl, ?_⟩
  · intro hpre hmime hdata
    rw [get_email_body_some_parts]
    have hf : ∀ q ∈ pre,
        (if q.mimeType == "text/plain" then q.data else none) = none := by
      intro q hq
      simp [hpre q hq]
    rw [findSome?_append_none _ _ _ hf, List.findSome?_cons]
    simp [hmime, hdata]
  · intro hhtml
    rw [get_email_body_some_parts]
    have hnone : parts.findSome? (fun part =>
        if part.mimeType == "text/plain" then part.data else none) = none := by
      rw [List.findSome?_eq_none_iff]
      intro q hq
      simp [hhtml q hq]
    rw [hnone]

/-- C10: `src/core/llm_client.py` binds no top-level name `get_llm_client`
(its only definitions are the `LLMClient` class and the `llm_client`
instance), so the module-level import `from core.llm_client import
get_llm_client` in both the reply drafter and the summarizer raises
`ImportError` at load time.  Hence no execution exists in which
`draft_reply`, `refine_reply` or `summarize_email` runs its generation
branch and returns a success-path (LLM-generated) result: every producible
value of these operations is (vacuously) a fallback value. -/
theorem get_llm_client_never_defined :
    llmClientDefinedNames = ["LLMClient", "llm_client"] ∧
    "get_llm_client" ∉ llmClientModuleNames ∧
    reply_drafter_module_load = Except.error "cannot import name get_llm_client" ∧
    summarizer_module_load = Except.error "cannot import name get_llm_client" ∧
    (∀ u : Unit, reply_drafter_module_load ≠ Except.ok u) ∧
    (∀ u : Unit, summarizer_module_load ≠ Except.ok u) := by
  have hmem : "get_llm_client" ∉ llmClientModuleNames := by decide
  have hload : importFrom llmClientModuleNames "get_llm_client" =
      Except.error "cannot import name get_llm_client" := by
    rw [importFrom, if_neg hmem]
    rfl
  refine ⟨rfl, hmem, hload, hload, ?_, ?_⟩
  · intro u hu
    rw [reply_drafter_module_load, hload] at hu
    exact Except.noConfusion hu
  · intro u hu
    rw [summarizer_module_load, hload] at hu
    exact Except.noConfusion hu
